import Mathlib

/-!
Shallow embedding of the project-manager CRUD application (`app.py`).

The application is a thin UI over a remote `projects` table:
`projects(id serial primary key, project_name text not null,
description text not null, date_added timestamp default current_timestamp)`.
We model the table as a list of rows together with the serial counter the
store uses to assign fresh ids; timestamps are natural numbers supplied by
the store's clock at insertion time.  The data-access functions
(`add_project`, `update_project`, `delete_project`, `get_projects`) are
translated from the query each one issues; the keyword search is translated
at the level of the SQL pattern the code builds
(`project_name.ilike.%kw%,description.ilike.%kw%`), so `ILIKE` wildcard
semantics of `%` and `_` are part of the model.
-/

/-- A row of the `projects` table. -/
structure Project where
  id : Nat
  project_name : String
  description : String
  date_added : Nat
deriving DecidableEq, Repr

/-- The `projects` table state: its rows plus the serial `id` counter. -/
structure DB where
  rows : List Project
  nextId : Nat
deriving DecidableEq, Repr

/-- Well-formedness of the store: every assigned id is below the serial
counter (what `id serial primary key` guarantees). -/
def WF (db : DB) : Prop := ∀ p ∈ db.rows, p.id < db.nextId

instance (db : DB) : Decidable (WF db) :=
  inferInstanceAs (Decidable (∀ p ∈ db.rows, p.id < db.nextId))

/-- Python `str.strip()` as used in the add form: drop leading and trailing
whitespace; the form's truthiness test is `≠ []` on the result. -/
def pyStrip (s : String) : List Char :=
  ((s.data.dropWhile Char.isWhitespace).reverse.dropWhile Char.isWhitespace).reverse

/-- SQL `LIKE` pattern matching on (already case-folded) character lists:
`%` matches any sequence, `_` matches exactly one character, a backslash
(PostgreSQL's default escape character) makes the pattern character after
it match literally, and any other character matches itself.  A dangling
final escape cannot arise from the `'%' ++ kw ++ '%'` patterns built here,
since such a pattern always ends in `%`; it is mapped to a match
failure. -/
def likeMatch : List Char → List Char → Bool
  | [], s => s.isEmpty
  | c :: ps, s =>
    if c = '\\' then
      match ps, s with
      | [], _ => false
      | _ :: _, [] => false
      | e :: ps2, x :: xs => (e == x) && likeMatch ps2 xs
    else if c = '%' then s.tails.any fun t => likeMatch ps t
    else
      match s with
      | [] => false
      | x :: xs => (c == '_' || c == x) && likeMatch ps xs

/-- Case-fold a string to its list of lowered characters (the `I` of
`ILIKE`). -/
def lc (s : String) : List Char := s.data.map Char.toLower

/-- The test the generated query performs on one column:
`column ILIKE '%kw%'`, i.e. `likeMatch` of the pattern the f-string
`%{keyword}%` builds, case-folded on both sides. -/
def ilikeContains (kw s : String) : Bool :=
  likeMatch ('%' :: (lc kw ++ ['%'])) (lc s)

/-- Whether the PostgREST logic-tree filter string the code builds,
`or=(project_name.ilike.%kw%,description.ilike.%kw%)`, parses.  The
keyword is interpolated without quoting or escaping, so a comma splits the
value into malformed extra conditions and a parenthesis derails the tree
grouping; in both cases the server answers 400 and the client raises
`APIError` instead of returning rows. -/
def orFilterParses (kw : String) : Bool :=
  !kw.data.any fun c => c == ',' || c == '(' || c == ')'

/-- Row ordering used by the dashboard query: `order("date_added", desc=True)`,
most recent first. -/
def byDateDesc (a b : Project) : Prop := b.date_added ≤ a.date_added

instance : DecidableRel byDateDesc := fun a b => Nat.decLe b.date_added a.date_added

instance : IsTotal Project byDateDesc :=
  ⟨fun a b => (Nat.le_total b.date_added a.date_added).imp id id⟩

instance : IsTrans Project byDateDesc :=
  ⟨fun _ _ _ h1 h2 => Nat.le_trans h2 h1⟩

/-- `add_project(name, desc)`: insert one row; the store assigns the serial
id and the timestamp `t` (its current clock). -/
def add_project (db : DB) (name desc : String) (t : Nat) : DB :=
  { rows := db.rows ++
      [{ id := db.nextId, project_name := name, description := desc, date_added := t }],
    nextId := db.nextId + 1 }

/-- The per-row effect of `update ... eq("id", pid)`. -/
def updRow (pid : Nat) (n d : String) (p : Project) : Project :=
  if p.id = pid then { p with project_name := n, description := d } else p

/-- `update_project(project_id, name, desc)`: set name and description on
every row whose id matches. -/
def update_project (db : DB) (pid : Nat) (n d : String) : DB :=
  { db with rows := db.rows.map (updRow pid n d) }

/-- `delete_project(project_id)`: delete the rows whose id matches. -/
def delete_project (db : DB) (pid : Nat) : DB :=
  { db with rows := db.rows.filter fun p => p.id ≠ pid }

/-- `get_projects(keyword=None)`: select all rows ordered by `date_added`
descending; when the keyword is truthy (neither `None` nor the empty
string) apply the `or_()` filter built by f-string interpolation.  If the
interpolated keyword breaks the logic-tree parse the call raises
(`Except.error`); otherwise it returns the rows where name or description
matches `ILIKE '%kw%'`. -/
def get_projects (db : DB) (keyword : Option String) : Except String (List Project) :=
  let sorted := List.insertionSort byDateDesc db.rows
  match keyword with
  | none => Except.ok sorted
  | some kw =>
    if kw = "" then Except.ok sorted
    else if orFilterParses kw then
      Except.ok (sorted.filter fun p =>
        ilikeContains kw p.project_name || ilikeContains kw p.description)
    else Except.error "APIError: failed to parse logic tree"

/-- Message the add form displays after a submission. -/
inductive Msg where
  | success (name : String) : Msg
  | warning : Msg
deriving DecidableEq, Repr

/-- The add-form submission handler: insert only when both fields are
non-blank after `strip()`, else warn and leave the store untouched. -/
def add_project_form (db : DB) (name desc : String) (t : Nat) : DB × Msg :=
  if pyStrip name ≠ [] ∧ pyStrip desc ≠ [] then
    (add_project db name desc t, Msg.success name)
  else
    (db, Msg.warning)

/-- Outcome of the raw `supabase.rpc("execute_sql", ...)` call inside
`init_db`: it either succeeds or raises an exception. -/
inductive RpcOutcome where
  | ok : RpcOutcome
  | raises (e : String) : RpcOutcome
deriving DecidableEq, Repr

/-- What startup reports about schema creation. -/
inductive StartupMsg where
  | silent : StartupMsg
  | warn (e : String) : StartupMsg
deriving DecidableEq, Repr

/-- `init_db()`: run the DDL rpc inside `try: ... except Exception: pass`,
so the function returns normally whatever the rpc did. -/
def init_db (r : RpcOutcome) : Except String Unit :=
  match r with
  | RpcOutcome.ok => Except.ok ()
  | RpcOutcome.raises _ => Except.ok ()

/-- The top-level call site `try: init_db() except Exception as e:
st.warning(...)`: the message shown, paired with whether execution
continues past it. -/
def init_db_startup (r : RpcOutcome) : StartupMsg × Bool :=
  match init_db r with
  | Except.ok _ => (StartupMsg.silent, true)
  | Except.error e => (StartupMsg.warn e, true)

/-! ### Concrete stores used by witnesses and counterexamples -/

def rowA : Project :=
  { id := 1, project_name := "Alpha", description := "a python chatbot", date_added := 10 }

def rowB : Project :=
  { id := 2, project_name := "Beta", description := "an API demo", date_added := 20 }

def dbW : DB := { rows := [rowA, rowB], nextId := 3 }

lemma get_projects_none (db : DB) :
    get_projects db none = Except.ok (List.insertionSort byDateDesc db.rows) := rfl

lemma get_projects_some_empty (db : DB) :
    get_projects db (some "") = Except.ok (List.insertionSort byDateDesc db.rows) := rfl

lemma get_projects_some (db : DB) (kw : String) (h : kw ≠ "")
    (hp : orFilterParses kw = true) :
    get_projects db (some kw) =
      Except.ok ((List.insertionSort byDateDesc db.rows).filter fun p =>
        ilikeContains kw p.project_name || ilikeContains kw p.description) := by
  simp [get_projects, h, hp]

lemma get_projects_some_error (db : DB) (kw : String) (h : kw ≠ "")
    (hp : orFilterParses kw = false) :
    get_projects db (some kw) = Except.error "APIError: failed to parse logic tree" := by
  simp [get_projects, h, hp]

lemma mem_rows_of_get_projects_ok {db : DB} {kw : Option String} {l : List Project}
    (hok : get_projects db kw = Except.ok l) {p : Project} (h : p ∈ l) : p ∈ db.rows := by
  have hperm := List.perm_insertionSort byDateDesc db.rows
  cases kw with
  | none =>
    rw [get_projects_none] at hok
    cases hok
    exact hperm.mem_iff.mp h
  | some k =>
    by_cases hk : k = ""
    · rw [hk, get_projects_some_empty] at hok
      cases hok
      exact hperm.mem_iff.mp h
    · cases hp : orFilterParses k with
      | false => rw [get_projects_some_error db k hk hp] at hok; cases hok
      | true =>
        rw [get_projects_some db k hk hp] at hok
        cases hok
        exact hperm.mem_iff.mp (List.mem_of_mem_filter h)

/-! ### Claim theorems -/

/-- C2 (corrected): submitting the add form with name and description both
non-blank (non-empty after stripping whitespace) inserts exactly one new
row — the length grows by one, every old row is kept — and the new row,
carrying the submitted name and description under a fresh id, is
retrievable by a subsequent unfiltered `get_projects`. -/
theorem add_form_nonblank_inserts (db : DB) (name desc : String) (t : Nat)
    (hwf : WF db) (hn : pyStrip name ≠ []) (hd : pyStrip desc ≠ []) :
    ((add_project_form db name desc t).1.rows.length = db.rows.length + 1) ∧
    (∀ p ∈ db.rows, p ∈ (add_project_form db name desc t).1.rows) ∧
    (∃ l, get_projects (add_project_form db name desc t).1 none = Except.ok l ∧
      ∃ p ∈ l, p.project_name = name ∧ p.description = desc ∧
        p.id ∉ db.rows.map Project.id) := by
  have hform : add_project_form db name desc t = (add_project db name desc t, Msg.success name) := by
    rw [add_project_form, if_pos ⟨hn, hd⟩]
  rw [hform]
  refine ⟨by simp [add_project], ?_, ?_⟩
  · intro p hp
    simp only [add_project, List.mem_append]
    exact Or.inl hp
  · refine ⟨List.insertionSort byDateDesc (add_project db name desc t).rows,
      get_projects_none (add_project db name desc t),
      { id := db.nextId, project_name := name, description := desc, date_added := t },
      ?_, rfl, rfl, ?_⟩
    · apply (List.perm_insertionSort byDateDesc (add_project db name desc t).rows).mem_iff.mpr
      simp [add_project]
    · intro hmem
      obtain ⟨q, hq, hqid⟩ := List.mem_map.mp hmem
      exact absurd hqid (Nat.ne_of_lt (hwf q hq))

/-- C2 witness: the corrected statement at a concrete well-formed store and
non-blank inputs. -/
theorem add_form_nonblank_inserts_witness :
    ((add_project_form dbW "Gamma" "a cli tool" 30).1.rows.length = dbW.rows.length + 1) ∧
    (∀ p ∈ dbW.rows, p ∈ (add_project_form dbW "Gamma" "a cli tool" 30).1.rows) ∧
    (∃ l, get_projects (add_project_form dbW "Gamma" "a cli tool" 30).1 none = Except.ok l ∧
      ∃ p ∈ l, p.project_name = "Gamma" ∧ p.description = "a cli tool" ∧
        p.id ∉ dbW.rows.map Project.id) :=
  add_form_nonblank_inserts dbW "Gamma" "a cli tool" 30 (by decide) (by decide) (by decide)

/-- C2 counterexample: the name `" "` and the description are both
non-empty strings, yet the form inserts nothing and warns, because the
handler tests `strip()` non-emptiness rather than non-emptiness. -/
theorem add_form_nonblank_inserts_counterexample :
    (" " ≠ ("" : String)) ∧ ("a real description" ≠ ("" : String)) ∧
    add_project_form { rows := [], nextId := 1 } " " "a real description" 7 =
      ({ rows := [], nextId := 1 }, Msg.warning) := by
  decide

/-- C3: submitting the add form with an empty name or an empty description
leaves the store unchanged and shows the warning message. -/
theorem add_form_empty_rejected (db : DB) (name desc : String) (t : Nat)
    (h : name = "" ∨ desc = "") :
    add_project_form db name desc t = (db, Msg.warning) := by
  have h0 : pyStrip "" = [] := rfl
  rcases h with h | h <;> subst h <;> rw [add_project_form, if_neg (by simp [h0])]

/-- C3 witness: an empty name is rejected on a concrete store. -/
theorem add_form_empty_rejected_witness :
    add_project_form dbW "" "some description" 30 = (dbW, Msg.warning) :=
  add_form_empty_rejected dbW "" "some description" 30 (Or.inl rfl)

lemma filter_ne_map_updRow (rows : List Project) (pid : Nat) (n d : String) :
    (rows.map (updRow pid n d)).filter (fun p => p.id ≠ pid) =
      rows.filter fun p => p.id ≠ pid := by
  induction rows with
  | nil => rfl
  | cons a l ih =>
    simp only [ne_eq, decide_not] at ih ⊢
    by_cases h : a.id = pid
    · simp [updRow, h, ih]
    · simp [updRow, h, ih]

/-- C4: updating an existing id keeps every row's id and creation timestamp
in place, leaves every row with a different id untouched, and gives every
row with the matching id the new name and description. -/
theorem update_preserves_frame (db : DB) (pid : Nat) (n d : String)
    (_hmem : pid ∈ db.rows.map Project.id) :
    ((update_project db pid n d).rows.map Project.id = db.rows.map Project.id) ∧
    ((update_project db pid n d).rows.map Project.date_added =
      db.rows.map Project.date_added) ∧
    ((update_project db pid n d).rows.filter (fun p => p.id ≠ pid) =
      db.rows.filter fun p => p.id ≠ pid) ∧
    (∀ p ∈ (update_project db pid n d).rows, p.id = pid →
      p.project_name = n ∧ p.description = d) := by
  refine ⟨?_, ?_, ?_, ?_⟩
  · simp only [update_project, List.map_map]
    apply List.map_congr_left
    intro a _
    by_cases h : a.id = pid <;> simp [updRow, h]
  · simp only [update_project, List.map_map]
    apply List.map_congr_left
    intro a _
    by_cases h : a.id = pid <;> simp [updRow, h]
  · exact filter_ne_map_updRow db.rows pid n d
  · intro p hp hpid
    simp only [update_project, List.mem_map] at hp
    obtain ⟨q, _, rfl⟩ := hp
    by_cases h : q.id = pid
    · simp [updRow, h]
    · simp [updRow, h] at hpid

/-- C4 witness: the frame property at a concrete store and existing id. -/
theorem update_preserves_frame_witness :
    ((update_project dbW 1 "New" "new desc").rows.map Project.id =
      dbW.rows.map Project.id) ∧
    ((update_project dbW 1 "New" "new desc").rows.map Project.date_added =
      dbW.rows.map Project.date_added) ∧
    ((update_project dbW 1 "New" "new desc").rows.filter (fun p => p.id ≠ 1) =
      dbW.rows.filter fun p => p.id ≠ 1) ∧
    (∀ p ∈ (update_project dbW 1 "New" "new desc").rows, p.id = 1 →
      p.project_name = "New" ∧ p.description = "new desc") :=
  update_preserves_frame dbW 1 "New" "new desc" (by decide)

/-- C5: once an id is deleted, no list a subsequent `get_projects` call
returns — with or without a keyword — holds a row with that id. -/
theorem deleted_id_absent_from_lists (db : DB) (pid : Nat)
    (_hp : pid ∈ db.rows.map Project.id) (kw : Option String) (l : List Project)
    (hok : get_projects (delete_project db pid) kw = Except.ok l) :
    pid ∉ l.map Project.id := by
  intro hmem
  obtain ⟨p, hpmem, hpid⟩ := List.mem_map.mp hmem
  have h1 : p ∈ (delete_project db pid).rows := mem_rows_of_get_projects_ok hok hpmem
  simp only [delete_project] at h1
  have h2 := List.mem_filter.mp h1
  exact (of_decide_eq_true h2.2) hpid

/-- C5 witness: the deleted id 1 is absent from the list a keyword search
returns on a concrete store. -/
theorem deleted_id_absent_from_lists_witness :
    1 ∉ ([rowB] : List Project).map Project.id :=
  deleted_id_absent_from_lists dbW 1 (by decide) (some "api") [rowB] rfl

/-- C6: every list `get_projects` returns — with or without a keyword — is
ordered by `date_added` descending, most recent first. -/
theorem getProjects_sorted_by_date_desc (db : DB) (kw : Option String) (l : List Project)
    (hok : get_projects db kw = Except.ok l) :
    List.Sorted byDateDesc l := by
  have hs : List.Sorted byDateDesc (List.insertionSort byDateDesc db.rows) :=
    List.sorted_insertionSort byDateDesc db.rows
  cases kw with
  | none =>
    rw [get_projects_none] at hok
    cases hok
    exact hs
  | some k =>
    by_cases h : k = ""
    · rw [h, get_projects_some_empty] at hok
      cases hok
      exact hs
    · cases hp : orFilterParses k with
      | false => rw [get_projects_some_error db k h hp] at hok; cases hok
      | true =>
        rw [get_projects_some db k h hp] at hok
        cases hok
        exact hs.filter _

/-- C6 witness: the sortedness statement at a concrete store, where the
unfiltered listing is the two rows most recent first. -/
theorem getProjects_sorted_by_date_desc_witness :
    List.Sorted byDateDesc [rowB, rowA] :=
  getProjects_sorted_by_date_desc dbW none [rowB, rowA] rfl

/-- C7: updating an id that no row carries leaves the store exactly as it
was. -/
theorem update_absent_id_noop (db : DB) (pid : Nat) (n d : String)
    (h : pid ∉ db.rows.map Project.id) :
    update_project db pid n d = db := by
  have hrows : ∀ rows : List Project, (∀ a ∈ rows, a.id ≠ pid) →
      rows.map (updRow pid n d) = rows := by
    intro rows hr
    induction rows with
    | nil => rfl
    | cons a l ih =>
      have ha : a.id ≠ pid := hr a (List.mem_cons_self _ _)
      rw [List.map_cons, ih fun b hb => hr b (List.mem_cons_of_mem _ hb)]
      simp only [updRow, if_neg ha]
  have hne : ∀ a ∈ db.rows, a.id ≠ pid := fun a ha hc => h (List.mem_map.mpr ⟨a, ha, hc⟩)
  show { db with rows := db.rows.map (updRow pid n d) } = db
  rw [hrows db.rows hne]

/-- C7 witness: updating the absent id 99 on a concrete store is a no-op. -/
theorem update_absent_id_noop_witness :
    update_project dbW 99 "X" "Y" = dbW :=
  update_absent_id_noop dbW 99 "X" "Y" (by decide)

/-- C8 counterexample: when the rpc raises, startup shows no warning at all
— `init_db` swallows the exception with `pass` before the caller's
`st.warning` handler can see it — refuting the claim that the failure is
reported as a warning. -/
theorem initdb_failure_silent_counterexample :
    init_db_startup (RpcOutcome.raises "missing execute_sql rpc") =
      (StartupMsg.silent, true) ∧
    StartupMsg.silent ≠ StartupMsg.warn "missing execute_sql rpc" := by
  decide

/-- C8 (corrected): a schema-creation failure is swallowed silently inside
`init_db`: the exception does not propagate, no message is shown, and
execution continues assuming the table exists. -/
theorem initdb_failure_swallowed (e : String) :
    init_db (RpcOutcome.raises e) = Except.ok () ∧
    init_db_startup (RpcOutcome.raises e) = (StartupMsg.silent, true) :=
  ⟨rfl, rfl⟩

/-- C9: an empty-string keyword is falsy exactly like an absent keyword, so
`get_projects` applies no filter and returns all rows. -/
theorem getProjects_empty_keyword_unfiltered (db : DB) :
    get_projects db (some "") = get_projects db none := by
  rw [get_projects_some_empty, get_projects_none]

/-- C10: `update_project` validates nothing: on any store holding the id,
updating with empty name and description leaves a row whose id matches and
whose name and description are both empty, breaking the non-empty-name
invariant of the data model. -/
theorem update_allows_empty_fields (db : DB) (pid : Nat)
    (h : pid ∈ db.rows.map Project.id) :
    ∃ p ∈ (update_project db pid "" "").rows,
      p.id = pid ∧ p.project_name = "" ∧ p.description = "" := by
  obtain ⟨q, hq, hqid⟩ := List.mem_map.mp h
  refine ⟨updRow pid "" "" q, List.mem_map.mpr ⟨q, hq, rfl⟩, ?_, ?_, ?_⟩
  · simp [updRow, hqid]
  · simp [updRow, hqid]
  · simp [updRow, hqid]

/-- C10 witness: updating id 1 with empty fields on a concrete store. -/
theorem update_allows_empty_fields_witness :
    ∃ p ∈ (update_project dbW 1 "" "").rows,
      p.id = 1 ∧ p.project_name = "" ∧ p.description = "" :=
  update_allows_empty_fields dbW 1 (by decide)
